import Mathlib

/-!
Shallow embedding of the `auto-updater-box-office` service (src/main.go).

The program serves a desktop auto-updater: it fetches the latest release of a
fixed GitHub project, selects the platform-specific asset and its detached
signature, caches the resolved record for five minutes behind a mutex, and
answers `GET /:platform/:current_version` with either 204 No Content or the
resolved record as JSON.

Modelling conventions:
- Go `interface{}` values produced by `json.Unmarshal` are the inductive `JSON`.
- An unchecked Go type assertion (`v.(string)`) that fails is a runtime panic;
  outcomes of a Go function returning `(*Release, error)` are therefore modelled
  by `GoResult`: a returned value, a returned error, or a crash (panic).
- The network is a `World`: the registry endpoint's response (transport error,
  or status plus an unmarshal outcome) and, for every URL, the response of
  `http.Get` used for the signature asset.  `io.ReadAll` failures are folded
  into the transport-error case.
- `time.Time` is a `Nat` number of seconds; `5 * time.Minute` is 300.
- Go string primitives `strings.HasSuffix`, `strings.TrimSuffix` and
  `strings.TrimSpace` are modelled character-exactly over `List Char`.
-/

namespace BoxOffice

/-- A JSON value as decoded by `encoding/json` into `interface{}`. -/
inductive JSON where
  | null : JSON
  | bool (b : Bool) : JSON
  | num (n : Int) : JSON
  | str (s : String) : JSON
  | arr (elems : List JSON) : JSON
  | obj (fields : List (String × JSON)) : JSON

/-- The `Release` struct of src/main.go (lines 22-28). -/
structure Release where
  Version : String
  Notes : String
  PubDate : String
  Url : String
  Signature : String
deriving Repr, DecidableEq

/-- Outcome of a Go call: a returned value, a returned non-nil `error`, or a
runtime panic from a failed unchecked type assertion. -/
inductive GoResult (α : Type) where
  | ok (a : α) : GoResult α
  | err : GoResult α
  | crash : GoResult α
deriving Repr, DecidableEq

/-- An HTTP response that arrived: its status code and fully read body. -/
structure HttpResp where
  status : Nat
  body : String
deriving Repr, DecidableEq

/-- The registry response body after `json.Unmarshal` into
`map[string]interface{}`: either an unmarshal error, or the decoded object. -/
inductive RegistryBody where
  | malformed : RegistryBody
  | parsed (fields : List (String × JSON)) : RegistryBody

/-- The external network as observed during one resolution: the
`releases/latest` endpoint's reply (`none` = transport error), and the reply of
`http.Get` for each asset URL (`none` = transport error). -/
structure World where
  registry : Option (Nat × RegistryBody)
  get : String → Option HttpResp

/-- Go `strings.HasSuffix`. -/
def goHasSuffix (s suffixStr : String) : Bool :=
  List.isSuffixOf suffixStr.toList s.toList

/-- Go `strings.TrimSuffix`: drop the suffix when present, else return `s`. -/
def goTrimSuffix (s suffixStr : String) : String :=
  if goHasSuffix s suffixStr then
    String.mk (s.toList.take (s.toList.length - suffixStr.toList.length))
  else s

/-- Trim whitespace from both ends of a character list. -/
def trimCharList (l : List Char) : List Char :=
  ((l.dropWhile Char.isWhitespace).reverse.dropWhile Char.isWhitespace).reverse

/-- Go `strings.TrimSpace`. -/
def goTrimSpace (s : String) : String :=
  String.mk (trimCharList s.toList)

/-- The fixed boilerplate sentence stripped from release bodies (line 77). -/
def boilerplate : String :=
  "See the assets to download this version and install."

/-- Notes derivation (lines 76-78): strip the boilerplate suffix, then trim
surrounding whitespace. -/
def stripNotes (bodyText : String) : String :=
  goTrimSpace (goTrimSuffix bodyText boilerplate)

/-- The `platformsExtensions` map literal (lines 82-87), as an association
list in source order. -/
def platformsExtensions : List (String × String) :=
  [("linux-x86_64", "amd64.AppImage"),
   ("darwin-x86_64", "app.tar.gz"),
   ("darwin-aarch64", "app.tar.gz"),
   ("windows-x86_64", "x64_en-US.msi")]

/-- `extension := platformsExtensions[platform]` (line 88): a missing key
yields Go's zero value `""`. -/
def extensionFor (platform : String) : String :=
  (platformsExtensions.lookup platform).getD ""

/-- The value of a Go type assertion `v.(string)` on a map-lookup result:
`some` when the entry exists and is a string, otherwise the assertion panics
(`none` here; callers turn it into `GoResult.crash`). -/
def asString : Option JSON → Option String
  | some (.str s) => some s
  | _ => none

/-- The asset scan loop (lines 92-114), carrying the two accumulator variables
`updateDownloadUrl` and `updateSignature`.  Each element is asserted to be an
object with string `name` and `browser_download_url` (panic otherwise); a name
ending in `extension` overwrites the download URL; otherwise a name ending in
`extension ++ ".sig"` triggers `http.Get` of the asset URL, whose body becomes
the signature (a transport error aborts the whole call with an error). -/
def scanAssets (w : World) (e : String) :
    List JSON → String → String → GoResult (String × String)
  | [], url, sig => .ok (url, sig)
  | asset :: rest, url, sig =>
    match asset with
    | .obj assetMap =>
      match asString (assetMap.lookup "name"),
            asString (assetMap.lookup "browser_download_url") with
      | some assetName, some assetURL =>
        if goHasSuffix assetName e then
          scanAssets w e rest assetURL sig
        else if goHasSuffix assetName (e ++ ".sig") then
          match w.get assetURL with
          | none => .err
          | some resp => scanAssets w e rest url resp.body
        else
          scanAssets w e rest url sig
      | _, _ => .crash
    | _ => .crash

/-- The refresh path of `getLatestGHRelease` (lines 58-122): registry fetch,
unmarshal, unchecked field assertions for `tag_name`, `body`, `published_at`,
notes derivation, extension lookup, comma-ok assertion on `assets` (a missing
or non-array `assets` silently skips the loop), and record assembly.  The HTTP
status code of the registry response is never consulted. -/
def resolveRelease (w : World) (platform : String) : GoResult Release :=
  match w.registry with
  | none => .err
  | some (_status, .malformed) => .err
  | some (_status, .parsed releaseData) =>
    match asString (releaseData.lookup "tag_name") with
    | none => .crash
    | some version =>
      match asString (releaseData.lookup "body") with
      | none => .crash
      | some rawNotes =>
        match asString (releaseData.lookup "published_at") with
        | none => .crash
        | some pubDate =>
          let scanned :=
            match releaseData.lookup "assets" with
            | some (.arr assets) => scanAssets w (extensionFor platform) assets "" ""
            | _ => .ok ("", "")
          match scanned with
          | .err => .err
          | .crash => .crash
          | .ok (updateDownloadUrl, updateSignature) =>
            .ok { Version := version, Notes := stripNotes rawNotes,
                  PubDate := pubDate, Url := updateDownloadUrl,
                  Signature := updateSignature }

/-- `cacheDuration = 5 * time.Minute` (line 19), in seconds. -/
def cacheDuration : Nat := 300

/-- The process-wide cache globals `releaseCache` and `cacheExpires`
(lines 30-34). -/
structure CacheState where
  releaseCache : Option Release
  cacheExpires : Nat
deriving Repr, DecidableEq

/-- Go zero values at process start: nil pointer and zero time. -/
def CacheState.initial : CacheState :=
  { releaseCache := none, cacheExpires := 0 }

/-- `getLatestGHRelease` (lines 50-126) as a state transformer: under the
mutex, a call before `cacheExpires` returns the cached pointer unchanged;
otherwise the release is resolved, and only on success are the cache fields
stored, with the new expiry `now + cacheDuration`. -/
def getLatestGHRelease (w : World) (now : Nat) (st : CacheState)
    (platform : String) : GoResult (Option Release) × CacheState :=
  if now < st.cacheExpires then
    (.ok st.releaseCache, st)
  else
    match resolveRelease w platform with
    | .ok r => (.ok (some r),
        { releaseCache := some r, cacheExpires := now + cacheDuration })
    | .err => (.err, st)
    | .crash => (.crash, st)

/-- The wire-visible outcome of `getUpdaterHandler`: 204 No Content, 200 with
the release JSON, or the 500 produced when the handler's panic is recovered by
the framework's recovery middleware (`gin.Default()`). -/
inductive UpdateResponse where
  | noUpdateAvailable : UpdateResponse
  | updateAvailable (r : Release) : UpdateResponse
  | internalError : UpdateResponse
deriving Repr, DecidableEq

/-- `getUpdaterHandler` (lines 128-144): any error or nil release gives 204;
a version equal to `"v" + currentVersion` gives 204; otherwise 200 with the
record. -/
def getUpdaterHandler (w : World) (now : Nat) (st : CacheState)
    (platform currentVersion : String) : UpdateResponse × CacheState :=
  match getLatestGHRelease w now st platform with
  | (.ok none, st2) => (.noUpdateAvailable, st2)
  | (.ok (some release), st2) =>
    if release.Version = "v" ++ currentVersion then (.noUpdateAvailable, st2)
    else (.updateAvailable release, st2)
  | (.err, st2) => (.noUpdateAvailable, st2)
  | (.crash, st2) => (.internalError, st2)

/-- Modelled from the spec: the asset scan as §4.2 step 5 words it.  An asset
whose filename ends with `extension` and does not additionally end with
`extension ++ ".sig"` becomes the download-URL candidate (later matches win);
an asset whose filename ends with `extension ++ ".sig"` has its URL fetched
and its full response body becomes the signature.  Kept separate from
`scanAssets` (translated from the source) so the two can be compared. -/
def specScanAssets (w : World) (e : String) :
    List JSON → String → String → GoResult (String × String)
  | [], url, sig => .ok (url, sig)
  | asset :: rest, url, sig =>
    match asset with
    | .obj assetMap =>
      match asString (assetMap.lookup "name"),
            asString (assetMap.lookup "browser_download_url") with
      | some assetName, some assetURL =>
        if goHasSuffix assetName e && !goHasSuffix assetName (e ++ ".sig") then
          specScanAssets w e rest assetURL sig
        else if goHasSuffix assetName (e ++ ".sig") then
          match w.get assetURL with
          | none => .err
          | some resp => specScanAssets w e rest url resp.body
        else
          specScanAssets w e rest url sig
      | _, _ => .crash
    | _ => .crash

/-- A canonical well-formed asset object with the two fields the code reads. -/
def mkAsset (p : String × String) : JSON :=
  .obj [("name", .str p.1), ("browser_download_url", .str p.2)]

/-- A canonical well-formed registry object with the four fields the code
reads, in source order. -/
def registryObj (tag bodyText pub : String) (assets : List JSON) :
    List (String × JSON) :=
  [("tag_name", .str tag), ("body", .str bodyText),
   ("published_at", .str pub), ("assets", .arr assets)]

/-- §3's CacheSlot invariant: the cached record is present whenever the expiry
lies in the future (of any clock reading, i.e. whenever it is nonzero). -/
def CacheInv (st : CacheState) : Prop :=
  0 < st.cacheExpires → st.releaseCache.isSome = true

/-- A registry reply whose JSON object lacks every release field — the shape
GitHub actually returns for a 404 (`{"message": "Not Found"}`). -/
def notFoundWorld : World :=
  { registry := some (404, .parsed [("message", .str "Not Found")]),
    get := fun _ => none }

/-- A healthy registry reply carrying one installer asset whose name does not
match any known platform extension exactly but is a well-formed asset. -/
def unknownPlatformWorld : World :=
  { registry := some (200, .parsed (registryObj "v1.0.0" "notes"
      "2024-01-01T00:00:00Z"
      [mkAsset ("foo.AppImage", "https://example.com/foo.AppImage")])),
    get := fun _ => none }

/-- A fully healthy upstream: latest release v1.2.3 with a Linux installer
asset and its detached signature, every signature fetch answering 200. -/
def goodWorld : World :=
  { registry := some (200, .parsed (registryObj "v1.2.3" "Changelog"
      "2024-01-01T00:00:00Z"
      [mkAsset ("app-amd64.AppImage", "https://example.com/app-amd64.AppImage"),
       mkAsset ("app-amd64.AppImage.sig",
                "https://example.com/app-amd64.AppImage.sig")])),
    get := fun _ => some { status := 200, body := "sig-bytes" } }

/-- The record `goodWorld` resolves to for platform `linux-x86_64`. -/
def goodRelease : Release :=
  { Version := "v1.2.3", Notes := "Changelog", PubDate := "2024-01-01T00:00:00Z",
    Url := "https://example.com/app-amd64.AppImage", Signature := "sig-bytes" }

/-- An upstream that is unreachable at the transport level. -/
def downWorld : World :=
  { registry := none, get := fun _ => none }

/-- The registry of `goodWorld` with every signature fetch answering 200 and
the literal body `"Not Found page"`. -/
def sigStatus200World : World :=
  { registry := goodWorld.registry,
    get := fun _ => some { status := 200, body := "Not Found page" } }

/-- The registry of `goodWorld` with every signature fetch answering 404 and
the same body `"Not Found page"` an error page would carry. -/
def sigStatus404World : World :=
  { registry := goodWorld.registry,
    get := fun _ => some { status := 404, body := "Not Found page" } }

/-- The two assets of the spec's windows example (§8, extension mapping). -/
def winAssets : List JSON :=
  [mkAsset ("app-x64_en-US.msi", "https://example.com/app-x64_en-US.msi"),
   mkAsset ("app-x64_en-US.msi.sig", "https://example.com/app-x64_en-US.msi.sig")]

/-- A world for the windows example: signature fetches return a fixed body. -/
def winWorld : World :=
  { registry := none,
    get := fun _ => some { status := 200, body := "detached-signature" } }

/-- A suffix of a common list that is no longer than another suffix is a
suffix of that other suffix. -/
theorem suffix_of_suffix_of_length_le {l₁ l₂ l₃ : List Char}
    (h1 : l₁ <:+ l₃) (h2 : l₂ <:+ l₃) (h : l₁.length ≤ l₂.length) :
    l₁ <:+ l₂ := by
  rw [← List.reverse_prefix] at h1 h2 ⊢
  exact List.prefix_of_prefix_length_le h1 h2 (by simpa using h)

/-- `goHasSuffix` agrees with the list-suffix relation on the characters. -/
theorem goHasSuffix_iff (s suffixStr : String) :
    goHasSuffix s suffixStr = true ↔ suffixStr.toList <:+ s.toList := by
  unfold goHasSuffix
  exact List.isSuffixOf_iff_suffix

/-- For each of the three concrete platform extensions, a filename ending in
`e ++ ".sig"` cannot also end in `e`. -/
theorem sig_excludes_plain {e : String}
    (he : e = "amd64.AppImage" ∨ e = "app.tar.gz" ∨ e = "x64_en-US.msi")
    {name : String} (h : goHasSuffix name (e ++ ".sig") = true) :
    goHasSuffix name e = false := by
  by_contra hne
  have hplain : goHasSuffix name e = true := by
    cases hb : goHasSuffix name e with
    | false => exact absurd hb hne
    | true => rfl
  have h1 : e.toList <:+ name.toList := (goHasSuffix_iff _ _).mp hplain
  have h2 : (e ++ ".sig").toList <:+ name.toList := (goHasSuffix_iff _ _).mp h
  have hlen : e.toList.length ≤ (e ++ ".sig").toList.length := by
    have : (e ++ ".sig").toList = e.toList ++ ".sig".toList := by
      simp [String.toList, String.data_append]
    rw [this, List.length_append]
    omega
  have hsuf : e.toList <:+ (e ++ ".sig").toList :=
    suffix_of_suffix_of_length_le h1 h2 hlen
  rcases he with he | he | he <;> subst he <;> revert hsuf <;> decide

/-- Dropping a satisfied prefix twice is the same as dropping it once. -/
theorem dropWhile_dropWhile (p : Char → Bool) (l : List Char) :
    List.dropWhile p (List.dropWhile p l) = List.dropWhile p l := by
  induction l with
  | nil => rfl
  | cons a t ih =>
    by_cases ha : p a
    · rw [List.dropWhile_cons, if_pos ha, ih]
    · rw [List.dropWhile_cons, if_neg ha, List.dropWhile_cons, if_neg ha]

/-- The head of a `dropWhile` result never satisfies the predicate. -/
theorem dropWhile_head_not (p : Char → Bool) :
    ∀ (l : List Char) (x : Char) (xs : List Char),
      List.dropWhile p l = x :: xs → p x = false := by
  intro l
  induction l with
  | nil => intro x xs h; simp [List.dropWhile] at h
  | cons a t ih =>
    intro x xs h
    by_cases ha : p a
    · rw [List.dropWhile_cons, if_pos ha] at h
      exact ih x xs h
    · rw [List.dropWhile_cons, if_neg ha] at h
      cases h
      simpa using ha

/-- A list already clean on the left stays clean on the left after its right
end is trimmed. -/
theorem dropWhile_trimRight {p : Char → Bool} {l : List Char}
    (hl : List.dropWhile p l = l) :
    List.dropWhile p ((List.dropWhile p l.reverse).reverse) =
      (List.dropWhile p l.reverse).reverse := by
  cases hcase : (List.dropWhile p l.reverse).reverse with
  | nil => simp
  | cons y ys =>
    have hsplit : List.takeWhile p l.reverse ++ List.dropWhile p l.reverse =
        l.reverse := List.takeWhile_append_dropWhile p l.reverse
    have hl2 : l = (List.dropWhile p l.reverse).reverse ++
        (List.takeWhile p l.reverse).reverse := by
      have h := congrArg List.reverse hsplit
      rw [List.reverse_append, List.reverse_reverse] at h
      exact h.symm
    have hly : List.dropWhile p l =
        y :: (ys ++ (List.takeWhile p l.reverse).reverse) := by
      rw [hl]
      conv_lhs => rw [hl2, hcase]
      rfl
    have hy : p y = false := dropWhile_head_not p l y _ hly
    rw [List.dropWhile_cons, if_neg (by simp [hy])]

/-- Character-list whitespace trimming is idempotent. -/
theorem trimCharList_idem (l : List Char) :
    trimCharList (trimCharList l) = trimCharList l := by
  have ha : List.dropWhile Char.isWhitespace
      (List.dropWhile Char.isWhitespace l) =
      List.dropWhile Char.isWhitespace l :=
    dropWhile_dropWhile Char.isWhitespace l
  have h1 := dropWhile_trimRight ha
  unfold trimCharList
  rw [h1, List.reverse_reverse, dropWhile_dropWhile]

/-- `goTrimSpace` is idempotent. -/
theorem goTrimSpace_idem (s : String) :
    goTrimSpace (goTrimSpace s) = goTrimSpace s := by
  unfold goTrimSpace
  have : (String.mk (trimCharList s.toList)).toList = trimCharList s.toList := rfl
  rw [this, trimCharList_idem]

/-- `goTrimSuffix` is the identity when the suffix is not present. -/
theorem goTrimSuffix_of_not_suffix {s suffixStr : String}
    (h : goHasSuffix s suffixStr = false) :
    goTrimSuffix s suffixStr = s := by
  unfold goTrimSuffix
  rw [h]
  simp

/-- A successful lookup in the platform map yields one of the three concrete
extensions. -/
theorem extension_known {platform e : String}
    (hp : platformsExtensions.lookup platform = some e) :
    e = "amd64.AppImage" ∨ e = "app.tar.gz" ∨ e = "x64_en-US.msi" := by
  by_cases h1 : platform = "linux-x86_64"
  · subst h1
    have : some "amd64.AppImage" = some e := hp
    exact Or.inl (Option.some.inj this).symm
  by_cases h2 : platform = "darwin-x86_64"
  · subst h2
    have : some "app.tar.gz" = some e := hp
    exact Or.inr (Or.inl (Option.some.inj this).symm)
  by_cases h3 : platform = "darwin-aarch64"
  · subst h3
    have : some "app.tar.gz" = some e := hp
    exact Or.inr (Or.inl (Option.some.inj this).symm)
  by_cases h4 : platform = "windows-x86_64"
  · subst h4
    have : some "x64_en-US.msi" = some e := hp
    exact Or.inr (Or.inr (Option.some.inj this).symm)
  · exfalso
    have e1 : (platform == "linux-x86_64") = false := by simp [h1]
    have e2 : (platform == "darwin-x86_64") = false := by simp [h2]
    have e3 : (platform == "darwin-aarch64") = false := by simp [h3]
    have e4 : (platform == "windows-x86_64") = false := by simp [h4]
    simp [platformsExtensions, List.lookup, e1, e2, e3, e4] at hp

/-- For known platform extensions, the source's asset scan agrees step by
step with the spec's wording of the scan. -/
theorem scanAssets_eq_specScanAssets (w : World) {e : String}
    (he : e = "amd64.AppImage" ∨ e = "app.tar.gz" ∨ e = "x64_en-US.msi") :
    ∀ (assets : List JSON) (url sig : String),
      scanAssets w e assets url sig = specScanAssets w e assets url sig := by
  intro assets
  induction assets with
  | nil => intro url sig; rfl
  | cons asset rest ih =>
    intro url sig
    cases asset with
    | null => rfl
    | bool b => rfl
    | num n => rfl
    | str s => rfl
    | arr elems => rfl
    | obj assetMap =>
      show scanAssets w e (JSON.obj assetMap :: rest) url sig =
        specScanAssets w e (JSON.obj assetMap :: rest) url sig
      rw [scanAssets, specScanAssets]
      cases hn : asString (assetMap.lookup "name") with
      | none => rfl
      | some assetName =>
        cases hu : asString (assetMap.lookup "browser_download_url") with
        | none => rfl
        | some assetURL =>
          dsimp only
          by_cases hmain : goHasSuffix assetName e = true
          · have hsig : goHasSuffix assetName (e ++ ".sig") = false := by
              cases hb : goHasSuffix assetName (e ++ ".sig") with
              | false => rfl
              | true => rw [sig_excludes_plain he hb] at hmain; cases hmain
            rw [if_pos hmain, if_pos (by rw [hmain, hsig]; rfl), ih]
          · have hmain' : goHasSuffix assetName e = false := by
              cases hb : goHasSuffix assetName e with
              | false => rfl
              | true => exact absurd hb hmain
            have hfalse : ¬ (goHasSuffix assetName e &&
                !goHasSuffix assetName (e ++ ".sig")) = true := by
              rw [hmain']
              simp
            rw [if_neg hmain, if_neg hfalse]
            by_cases hs : goHasSuffix assetName (e ++ ".sig") = true
            · rw [if_pos hs, if_pos hs]
              cases w.get assetURL with
              | none => rfl
              | some resp => exact ih url resp.body
            · rw [if_neg hs, if_neg hs, ih]

/-- With the empty extension every well-formed asset matches the first branch,
so the scan returns the last asset URL (or the seed when there are none) and
never touches the signature accumulator. -/
theorem scanAssets_empty_extension (w : World) :
    ∀ (pairs : List (String × String)) (url sig : String),
      scanAssets w "" (pairs.map mkAsset) url sig =
        .ok ((pairs.map Prod.snd).getLastD url, sig) := by
  intro pairs
  induction pairs with
  | nil => intro url sig; rfl
  | cons p rest ih =>
    intro url sig
    have hsfx : goHasSuffix p.1 "" = true := by
      rw [goHasSuffix_iff]
      exact List.nil_suffix
    have hstep : scanAssets w "" (mkAsset p :: rest.map mkAsset) url sig =
        scanAssets w "" (rest.map mkAsset) p.2 sig := by
      show (if goHasSuffix p.1 "" then
          scanAssets w "" (rest.map mkAsset) p.2 sig
        else if goHasSuffix p.1 ("" ++ ".sig") then
          match w.get p.2 with
          | none => GoResult.err
          | some resp => scanAssets w "" (rest.map mkAsset) url resp.body
        else scanAssets w "" (rest.map mkAsset) url sig) =
        scanAssets w "" (rest.map mkAsset) p.2 sig
      rw [if_pos hsfx]
    rw [List.map_cons, hstep, ih, List.map_cons, List.getLastD_cons]

/-- Claim C1: evaluation of the refresh path on a registry reply whose JSON
object lacks the required release fields (GitHub's own `{"message": "Not
Found"}` 404 body).  The code does not return `MalformedUpstreamResponse`:
the unchecked type assertion on `tag_name` panics, and the HTTP status is
never consulted. -/
theorem resolver_crashes_on_missing_fields :
    resolveRelease notFoundWorld "linux-x86_64" = .crash := by decide

/-- Claim C2, counterexample: for the unknown platform `freebsd-x86_64` and
a one-asset upstream list, resolution succeeds but `Url` is the asset's URL,
not empty — `strings.HasSuffix(name, "")` holds for every name, so the empty
extension matches every asset rather than none. -/
theorem unknown_platform_url_not_empty :
    resolveRelease unknownPlatformWorld "freebsd-x86_64" =
      .ok { Version := "v1.0.0", Notes := "notes",
            PubDate := "2024-01-01T00:00:00Z",
            Url := "https://example.com/foo.AppImage", Signature := "" } ∧
    "https://example.com/foo.AppImage" ≠ "" := by
  constructor
  · decide
  · decide

/-- Claim C2, amended: for every platform absent from the extension map and
every list of well-formed assets, resolution succeeds with an empty signature
and with `Url` equal to the `browser_download_url` of the LAST asset in list
order (empty only when the asset list is empty), because the empty extension
matches every asset name. -/
theorem unknown_platform_resolves (platform : String)
    (hp : platformsExtensions.lookup platform = none)
    (status : Nat) (tag bodyText pub : String)
    (pairs : List (String × String)) (g : String → Option HttpResp) :
    resolveRelease
      { registry := some (status,
          .parsed (registryObj tag bodyText pub (pairs.map mkAsset))),
        get := g } platform =
      .ok { Version := tag, Notes := stripNotes bodyText, PubDate := pub,
            Url := (pairs.map Prod.snd).getLastD "", Signature := "" } := by
  have hext : extensionFor platform = "" := by
    unfold extensionFor
    rw [hp]
    rfl
  simp [resolveRelease, registryObj, List.lookup, asString, hext,
    scanAssets_empty_extension]

/-- Claim C2, amended, witness at the counterexample input. -/
theorem unknown_platform_resolves_witness :
    resolveRelease
      { registry := some (200, .parsed (registryObj "v1.0.0" "notes"
          "2024-01-01T00:00:00Z"
          ([("foo.AppImage", "https://example.com/foo.AppImage")].map mkAsset))),
        get := fun _ => none } "freebsd-x86_64" =
      .ok { Version := "v1.0.0", Notes := stripNotes "notes",
            PubDate := "2024-01-01T00:00:00Z",
            Url := ([("foo.AppImage",
              "https://example.com/foo.AppImage")].map Prod.snd).getLastD "",
            Signature := "" } :=
  unknown_platform_resolves "freebsd-x86_64" (by decide) 200 "v1.0.0" "notes"
    "2024-01-01T00:00:00Z" [("foo.AppImage", "https://example.com/foo.AppImage")]
    (fun _ => none)

/-- Claim C7, counterexample: a release body consisting of the boilerplate
sentence twice.  One strip-and-trim pass leaves one boilerplate copy, and a
second pass removes it, so the operation is not idempotent on all bodies. -/
theorem stripNotes_not_idempotent :
    stripNotes (stripNotes (boilerplate ++ boilerplate)) ≠
      stripNotes (boilerplate ++ boilerplate) := by decide

/-- Claim C7, amended: strip-and-trim is idempotent on every body whose
strip-and-trim result does not itself still end with the boilerplate sentence
(in particular on all already-clean bodies). -/
theorem stripNotes_idem_of_clean (s : String)
    (h : goHasSuffix (stripNotes s) boilerplate = false) :
    stripNotes (stripNotes s) = stripNotes s := by
  unfold stripNotes at h ⊢
  rw [goTrimSuffix_of_not_suffix h, goTrimSpace_idem]

/-- Claim C7, amended, witness on a realistic release body. -/
theorem stripNotes_idem_witness :
    goHasSuffix
      (stripNotes
        "Fixed crashes.\n\nSee the assets to download this version and install.")
      boilerplate = false ∧
    stripNotes (stripNotes
        "Fixed crashes.\n\nSee the assets to download this version and install.") =
      stripNotes
        "Fixed crashes.\n\nSee the assets to download this version and install." :=
  ⟨by decide, stripNotes_idem_of_clean _ (by decide)⟩

/-- Claim C3: a call strictly before `cacheExpires` returns the stored record
unchanged with no upstream contact (the result does not depend on the network
at all); a successful refresh stores the result and sets the expiry to
`now + cacheDuration` exactly, so a call 299 s later is a pure cache hit and a
call 301 s later invokes the resolver again. -/
theorem cache_ttl :
    (∀ (w : World) (now : Nat) (st : CacheState) (platform : String),
        now < st.cacheExpires →
        getLatestGHRelease w now st platform = (.ok st.releaseCache, st)) ∧
    (∀ (w : World) (now : Nat) (st : CacheState) (platform : String)
        (r : Release),
        ¬ now < st.cacheExpires →
        resolveRelease w platform = .ok r →
        getLatestGHRelease w now st platform =
          (.ok (some r),
           { releaseCache := some r, cacheExpires := now + cacheDuration }) ∧
        (∀ (w2 : World) (p2 : String),
            getLatestGHRelease w2 (now + 299)
              { releaseCache := some r, cacheExpires := now + cacheDuration }
              p2 =
            (.ok (some r),
             { releaseCache := some r, cacheExpires := now + cacheDuration })) ∧
        (∀ (w2 : World) (p2 : String) (r2 : Release),
            resolveRelease w2 p2 = .ok r2 →
            getLatestGHRelease w2 (now + 301)
              { releaseCache := some r, cacheExpires := now + cacheDuration }
              p2 =
            (.ok (some r2),
             { releaseCache := some r2,
               cacheExpires := now + 301 + cacheDuration }))) := by
  constructor
  · intro w now st platform h
    unfold getLatestGHRelease
    rw [if_pos h]
  · intro w now st platform r hmiss hok
    refine ⟨?_, ?_, ?_⟩
    · unfold getLatestGHRelease
      rw [if_neg hmiss, hok]
    · intro w2 p2
      unfold getLatestGHRelease
      rw [if_pos (by simp only [cacheDuration]; omega)]
    · intro w2 p2 r2 hok2
      unfold getLatestGHRelease
      rw [if_neg (by simp only [cacheDuration]; omega), hok2]

/-- Claim C3, witness: a concrete successful refresh at time 1000 and a cache
hit at time 1299 against an unreachable network. -/
theorem cache_ttl_witness :
    getLatestGHRelease goodWorld 1000 CacheState.initial "linux-x86_64" =
      (.ok (some goodRelease),
       { releaseCache := some goodRelease,
         cacheExpires := 1000 + cacheDuration }) ∧
    getLatestGHRelease downWorld (1000 + 299)
      { releaseCache := some goodRelease, cacheExpires := 1000 + cacheDuration }
      "darwin-x86_64" =
      (.ok (some goodRelease),
       { releaseCache := some goodRelease,
         cacheExpires := 1000 + cacheDuration }) :=
  have h := cache_ttl.2 goodWorld 1000 CacheState.initial "linux-x86_64"
    goodRelease (by decide) (by decide)
  ⟨h.1, h.2.1 downWorld "darwin-x86_64"⟩

/-- Claim C4: a failing resolution attempted while the slot is expired leaves
the slot exactly as it was and propagates the error, and any later call (the
slot still being expired) attempts resolution again and succeeds if the
resolver now succeeds. -/
theorem failed_refresh (w : World) (now : Nat) (st : CacheState)
    (platform : String)
    (hmiss : ¬ now < st.cacheExpires)
    (hfail : resolveRelease w platform = .err) :
    getLatestGHRelease w now st platform = (.err, st) ∧
    (∀ (w2 : World) (now2 : Nat) (p2 : String) (r2 : Release),
        now ≤ now2 → resolveRelease w2 p2 = .ok r2 →
        getLatestGHRelease w2 now2 st p2 =
          (.ok (some r2),
           { releaseCache := some r2, cacheExpires := now2 + cacheDuration })) := by
  constructor
  · unfold getLatestGHRelease
    rw [if_neg hmiss, hfail]
  · intro w2 now2 p2 r2 hle hok2
    unfold getLatestGHRelease
    rw [if_neg (by omega), hok2]

/-- Claim C4, witness: a transport failure at time 50 on the initial slot,
then a successful retry at time 60. -/
theorem failed_refresh_witness :
    getLatestGHRelease downWorld 50 CacheState.initial "linux-x86_64" =
      (.err, CacheState.initial) ∧
    getLatestGHRelease goodWorld 60 CacheState.initial "linux-x86_64" =
      (.ok (some goodRelease),
       { releaseCache := some goodRelease, cacheExpires := 60 + cacheDuration }) :=
  have h := failed_refresh downWorld 50 CacheState.initial "linux-x86_64"
    (by decide) (by decide)
  ⟨h.1, h.2 goodWorld 60 "linux-x86_64" goodRelease (by decide) (by decide)⟩

/-- Claim C8: the initial slot satisfies the CacheSlot invariant and is
treated as expired at every clock reading; `getLatestGHRelease` preserves the
invariant; and under the invariant a cache hit always returns a present
record. -/
theorem cache_slot_invariant :
    CacheInv CacheState.initial ∧
    (∀ now : Nat, ¬ now < CacheState.initial.cacheExpires) ∧
    (∀ (w : World) (now : Nat) (st : CacheState) (platform : String),
        CacheInv st → CacheInv (getLatestGHRelease w now st platform).2) ∧
    (∀ (w : World) (now : Nat) (st : CacheState) (platform : String),
        CacheInv st → now < st.cacheExpires →
        ∃ r : Release,
          (getLatestGHRelease w now st platform).1 = .ok (some r)) := by
  refine ⟨?_, ?_, ?_, ?_⟩
  · intro h
    simp [CacheState.initial] at h
  · intro now
    simp [CacheState.initial]
  · intro w now st platform hInv
    unfold getLatestGHRelease
    by_cases h : now < st.cacheExpires
    · rw [if_pos h]
      exact hInv
    · rw [if_neg h]
      cases hr : resolveRelease w platform with
      | ok r =>
        intro _
        rfl
      | err => exact hInv
      | crash => exact hInv
  · intro w now st platform hInv hlt
    have hpos : 0 < st.cacheExpires := Nat.lt_of_le_of_lt (Nat.zero_le now) hlt
    obtain ⟨r, hr⟩ := Option.isSome_iff_exists.mp (hInv hpos)
    refine ⟨r, ?_⟩
    unfold getLatestGHRelease
    rw [if_pos hlt, hr]

/-- Claim C8, witness: preservation applied at the initial slot, time 5, and
an unreachable upstream. -/
theorem cache_slot_invariant_witness :
    CacheInv (getLatestGHRelease downWorld 5 CacheState.initial
      "linux-x86_64").2 :=
  cache_slot_invariant.2.2.1 downWorld 5 CacheState.initial "linux-x86_64"
    (fun h => absurd h (by decide))

/-- Claim C5: for every platform present in the extension map, the source's
asset scan implements exactly the spec's description — an asset ending in the
extension and not in `extension ++ ".sig"` becomes the download URL with the
later of multiple matches winning, and an asset ending in
`extension ++ ".sig"` has its URL fetched, the full response body becoming
the signature. -/
theorem known_platform_scan_follows_spec (platform e : String)
    (hp : platformsExtensions.lookup platform = some e)
    (w : World) (assets : List JSON) (url sig : String) :
    scanAssets w e assets url sig = specScanAssets w e assets url sig :=
  scanAssets_eq_specScanAssets w (extension_known hp) assets url sig

/-- Claim C5, witness: the spec's windows example — the `.msi` asset becomes
the download URL and the fetched body of the `.msi.sig` asset becomes the
signature. -/
theorem known_platform_scan_follows_spec_witness :
    platformsExtensions.lookup "windows-x86_64" = some "x64_en-US.msi" ∧
    scanAssets winWorld "x64_en-US.msi" winAssets "" "" =
      specScanAssets winWorld "x64_en-US.msi" winAssets "" "" ∧
    scanAssets winWorld "x64_en-US.msi" winAssets "" "" =
      .ok ("https://example.com/app-x64_en-US.msi", "detached-signature") :=
  ⟨by decide,
   known_platform_scan_follows_spec "windows-x86_64" "x64_en-US.msi" (by decide)
     winWorld winAssets "" "",
   by decide⟩

/-- The response side of `getUpdaterHandler` as a case split on the cache
call's first component. -/
theorem getUpdaterHandler_fst (w : World) (now : Nat) (st : CacheState)
    (platform currentVersion : String) :
    (getUpdaterHandler w now st platform currentVersion).1 =
      match (getLatestGHRelease w now st platform).1 with
      | .ok none => .noUpdateAvailable
      | .ok (some release) =>
        if release.Version = "v" ++ currentVersion then .noUpdateAvailable
        else .updateAvailable release
      | .err => .noUpdateAvailable
      | .crash => .internalError := by
  cases h : getLatestGHRelease w now st platform with
  | mk res1 st2 =>
    unfold getUpdaterHandler
    rw [h]
    cases res1 with
    | ok o =>
      cases o with
      | none => rfl
      | some r =>
        dsimp only
        by_cases hv : r.Version = "v" ++ currentVersion
        · rw [if_pos hv, if_pos hv]
        · rw [if_neg hv, if_neg hv]
    | err => rfl
    | crash => rfl

/-- Claim C6: the handler answers 204 No Content exactly when the cache call
returns an error, returns no record, or returns a record whose version equals
`"v" ++ currentVersion` by exact string equality; any record with a different
version string is answered with 200 and that record. -/
theorem handler_no_update_iff (w : World) (now : Nat) (st : CacheState)
    (platform currentVersion : String) :
    ((getUpdaterHandler w now st platform currentVersion).1 =
        .noUpdateAvailable ↔
      (getLatestGHRelease w now st platform).1 = .err ∨
      (getLatestGHRelease w now st platform).1 = .ok none ∨
      (∃ r : Release,
        (getLatestGHRelease w now st platform).1 = .ok (some r) ∧
        r.Version = "v" ++ currentVersion)) ∧
    (∀ r : Release,
        (getLatestGHRelease w now st platform).1 = .ok (some r) →
        r.Version ≠ "v" ++ currentVersion →
        (getUpdaterHandler w now st platform currentVersion).1 =
          .updateAvailable r) := by
  rw [getUpdaterHandler_fst]
  cases hres : (getLatestGHRelease w now st platform).1 with
  | ok o =>
    cases o with
    | none => simp
    | some r0 =>
      by_cases hv : r0.Version = "v" ++ currentVersion
      · simp [hv]
      · simp [hv]
  | err => simp
  | crash => simp

/-- Claim C6, witness: a healthy upstream at v1.2.3 and a client declaring
9.9.9 — the strings differ (client "ahead" or not is irrelevant), so the
handler answers with the record. -/
theorem handler_no_update_iff_witness :
    (getUpdaterHandler goodWorld 0 CacheState.initial "linux-x86_64"
      "9.9.9").1 = .updateAvailable goodRelease :=
  (handler_no_update_iff goodWorld 0 CacheState.initial "linux-x86_64"
    "9.9.9").2 goodRelease (by decide) (by decide)

/-- The scan result depends on the signature fetches only through their
bodies: two networks answering every URL with the same transport outcome and
body (statuses free to differ) give identical scans. -/
theorem scanAssets_congr_get {w1 w2 : World} (e : String)
    (hget : ∀ u, (w1.get u).map HttpResp.body = (w2.get u).map HttpResp.body) :
    ∀ (assets : List JSON) (url sig : String),
      scanAssets w1 e assets url sig = scanAssets w2 e assets url sig := by
  intro assets
  induction assets with
  | nil => intro url sig; rfl
  | cons asset rest ih =>
    intro url sig
    cases asset with
    | null => rfl
    | bool b => rfl
    | num n => rfl
    | str s => rfl
    | arr elems => rfl
    | obj assetMap =>
      rw [scanAssets, scanAssets]
      cases hn : asString (assetMap.lookup "name") with
      | none => rfl
      | some assetName =>
        cases hu : asString (assetMap.lookup "browser_download_url") with
        | none => rfl
        | some assetURL =>
          dsimp only
          by_cases hmain : goHasSuffix assetName e = true
          · rw [if_pos hmain, if_pos hmain, ih]
          · rw [if_neg hmain, if_neg hmain]
            by_cases hs : goHasSuffix assetName (e ++ ".sig") = true
            · rw [if_pos hs, if_pos hs]
              have hbody := hget assetURL
              cases h1 : w1.get assetURL with
              | none =>
                cases h2 : w2.get assetURL with
                | none => rfl
                | some resp2 =>
                  rw [h1, h2] at hbody
                  simp at hbody
              | some resp1 =>
                cases h2 : w2.get assetURL with
                | none =>
                  rw [h1, h2] at hbody
                  simp at hbody
                | some resp2 =>
                  rw [h1, h2] at hbody
                  simp at hbody
                  dsimp only
                  rw [hbody, ih]
            · rw [if_neg hs, if_neg hs, ih]

/-- Claim C10: the resolver consults a signature fetch's response only
through its body, never its status code (two networks equal up to signature
statuses resolve identically); and concretely, a signature fetch answered
with any status and body yields that body as the stored signature. -/
theorem resolve_ignores_sig_status :
    (∀ (w1 w2 : World) (platform : String),
        w1.registry = w2.registry →
        (∀ u, (w1.get u).map HttpResp.body = (w2.get u).map HttpResp.body) →
        resolveRelease w1 platform = resolveRelease w2 platform) ∧
    (∀ (status : Nat) (bodyStr : String),
        scanAssets
          { registry := none,
            get := fun _ => some { status := status, body := bodyStr } }
          "x64_en-US.msi"
          [mkAsset ("app-x64_en-US.msi.sig",
                    "https://example.com/app-x64_en-US.msi.sig")]
          "" "" = .ok ("", bodyStr)) := by
  constructor
  · intro w1 w2 platform hreg hget
    unfold resolveRelease
    rw [hreg]
    cases w2.registry with
    | none => rfl
    | some pr =>
      rcases pr with ⟨status, rb⟩
      cases rb with
      | malformed => rfl
      | parsed releaseData =>
        dsimp only
        cases asString (releaseData.lookup "tag_name") with
        | none => rfl
        | some version =>
          cases asString (releaseData.lookup "body") with
          | none => rfl
          | some rawNotes =>
            cases asString (releaseData.lookup "published_at") with
            | none => rfl
            | some pubDate =>
              dsimp only
              cases releaseData.lookup "assets" with
              | none => rfl
              | some j =>
                cases j with
                | null => rfl
                | bool b => rfl
                | num n => rfl
                | str s => rfl
                | obj fields => rfl
                | arr assets =>
                  dsimp only
                  rw [scanAssets_congr_get (extensionFor platform) hget assets "" ""]
  · intro status bodyStr
    rfl

/-- Claim C10, witness: the same registry with signature fetches answering
200 versus 404 (same error-page body) resolve to identical records. -/
theorem resolve_ignores_sig_status_witness :
    resolveRelease sigStatus200World "linux-x86_64" =
      resolveRelease sigStatus404World "linux-x86_64" :=
  resolve_ignores_sig_status.1 sigStatus200World sigStatus404World
    "linux-x86_64" rfl (fun _ => rfl)

end BoxOffice
